import Mathlib

/-!
# Verification of the server-monitor metric store (src/index.ts)

A shallow embedding of the time-windowed metric store and statistics engine
of `src/index.ts`.  Numbers are modelled as exact rationals (`ℚ`) standing
for the idealized arithmetic of the source; timestamps are `ℤ` milliseconds.
JavaScript values read back from the snapshot file are modelled by a small
JSON inductive, since `JSON.parse(data) as StoreType` in the source performs
no schema validation.
-/

namespace ServerMonitor

/-- `RETENTION = 60 * 60 * 1000` (one hour in milliseconds), from index.ts. -/
def RETENTION : ℤ := 60 * 60 * 1000

/-- `type MetricData = { timestamp: number; value: number }`. -/
structure MetricData where
  timestamp : ℤ
  value : ℚ
  deriving DecidableEq, Repr

/-- `type StoreType = { cpu: MetricData[]; ram: MetricData[]; disk: MetricData[]; diskGrowth: number }`. -/
structure StoreType where
  cpu : List MetricData
  ram : List MetricData
  disk : List MetricData
  diskGrowth : ℚ
  deriving DecidableEq, Repr

/-- The default store value (`let store: StoreType = { cpu: [], ram: [], disk: [], diskGrowth: 0 }`). -/
def emptyStore : StoreType := { cpu := [], ram := [], disk := [], diskGrowth := 0 }

/-- The retention filter applied by `update` (and, on the parsed JSON, by
`loadDataFromFile`): keep samples with `m.timestamp >= now - RETENTION`. -/
def purge (now : ℤ) (l : List MetricData) : List MetricData :=
  l.filter (fun m => now - RETENTION ≤ m.timestamp)

/-- `async function update()` from index.ts, as a pure state transformer.
The sampled readings (`cpu`, `ram`, `disk`, `diskSizeGB`) and the wall clock
`now = Date.now()` are passed in as arguments.  Faithful to the source order:
push cpu and ram samples; if the disk series is non-empty and
`hoursDiff = (now - lastDisk.timestamp) / 3_600_000 > 0`, set
`diskGrowth = ((disk - lastDisk.value) / 100) * diskSizeGB / hoursDiff`;
push the disk sample; then purge every series by `cutoff = now - RETENTION`. -/
def update (now : ℤ) (cpu ram disk diskSizeGB : ℚ) (store : StoreType) : StoreType :=
  let s1 : StoreType :=
    { store with
      cpu := store.cpu ++ [⟨now, cpu⟩]
      ram := store.ram ++ [⟨now, ram⟩] }
  let s2 : StoreType :=
    match store.disk.getLast? with
    | some lastDisk =>
        let hoursDiff : ℚ := ((now : ℚ) - (lastDisk.timestamp : ℚ)) / (1000 * 60 * 60)
        if 0 < hoursDiff then
          let percentDiff : ℚ := disk - lastDisk.value
          { s1 with diskGrowth := percentDiff / 100 * diskSizeGB / hoursDiff }
        else s1
    | none => s1
  let s3 : StoreType := { s2 with disk := s2.disk ++ [⟨now, disk⟩] }
  { s3 with
    cpu := purge now s3.cpu
    ram := purge now s3.ram
    disk := purge now s3.disk }

/-- JavaScript `Math.round`: round half toward positive infinity. -/
def jsRound (q : ℚ) : ℤ := ⌊q + 1 / 2⌋

/-- `const roundRawNum = (n) => Math.round(n * 10) / 10`. -/
def roundRawNum (n : ℚ) : ℚ := (jsRound (n * 10) : ℚ) / 10

/-- `const roundInt = (n) => Math.round(n)`. -/
def roundInt (n : ℚ) : ℤ := jsRound n

/-- The decimal digit character for `d` (`0 ↦ '0'`, ..., `9 ↦ '9'`). -/
def digitChar (d : ℕ) : Char := Char.ofNat (48 + d)

/-- Decimal digit characters of a natural number, most significant first
(`0 ↦ ['0']`), with explicit recursion fuel (any fuel above the digit count
gives the same result; `natToStr` passes `n + 1`, which always suffices). -/
def natDigitsGo (fuel n : ℕ) : List Char :=
  match fuel with
  | 0 => []
  | fuel + 1 =>
    if n < 10 then [digitChar n]
    else natDigitsGo fuel (n / 10) ++ [digitChar (n % 10)]

/-- JavaScript's decimal rendering of a natural number. -/
def natToStr (n : ℕ) : String := String.mk (natDigitsGo (n + 1) n)

/-- JavaScript's decimal rendering of an integer. -/
def intToStr (z : ℤ) : String :=
  if z < 0 then "-" ++ natToStr z.natAbs else natToStr z.toNat

/-- `const formatIntWithPercent = (n) => round(n) + "%"`. -/
def formatIntWithPercent (n : ℚ) : String := intToStr (roundInt n) ++ "%"

/-- JavaScript's default string rendering of a nonnegative multiple of one
tenth, given as `z` tenths: an integer renders with no decimal point,
otherwise one decimal digit is shown (`13 ↦ "1.3"`, `10 ↦ "1"`). -/
def formatTenths (z : ℤ) : String :=
  if z % 10 = 0 then intToStr (z / 10)
  else intToStr (z / 10) ++ "." ++ intToStr (z % 10)

/-- `const formatGrowthGB = (n) => ...`: the dead zone `|n| < 0.05` renders
as `"±0 GB"`; otherwise a `"+ "` or `"- "` prefix followed by the absolute
value rounded to one decimal place (`roundRawNum`) and `" GB"`. -/
def formatGrowthGB (n : ℚ) : String :=
  if |n| < 1 / 20 then "±0 GB"
  else if 0 < n then "+ " ++ formatTenths (jsRound (n * 10)) ++ " GB"
  else "- " ++ formatTenths (jsRound (|n| * 10)) ++ " GB"

/-- `Math.max(...values)` over a list, with the source's `values.length ? ... : 0`
guard folded in: `0` on the empty list. -/
def listMaxOrZero : List ℚ → ℚ
  | [] => 0
  | x :: xs => xs.foldl max x

/-- `values.reduce((a, b) => a + b, 0) / values.length`, `0` on the empty list. -/
def listAvgOrZero (l : List ℚ) : ℚ :=
  if l = [] then 0 else l.foldl (· + ·) 0 / l.length

/-- `timestamp` of the last element of a series, `0` if the series is empty. -/
def latestTimestamp (l : List MetricData) : ℤ :=
  match l.getLast? with
  | some m => m.timestamp
  | none => 0

/-- The `cpu`/`ram` blocks of the `getStats()` result. -/
structure RateStats where
  max : String
  avg : String
  count : ℕ
  timestamp : ℤ
  deriving DecidableEq, Repr

/-- The `disk` block of the `getStats()` result. -/
structure DiskStats where
  current : String
  growth : String
  count : ℕ
  timestamp : ℤ
  deriving DecidableEq, Repr

/-- The record returned by `getStats()`. -/
structure StatsResult where
  cpu : RateStats
  ram : RateStats
  disk : DiskStats
  deriving DecidableEq, Repr

/-- `function getStats()` from index.ts, reading the store. -/
def getStats (store : StoreType) : StatsResult :=
  let cpuValues := store.cpu.map (·.value)
  let ramValues := store.ram.map (·.value)
  let diskValues := store.disk.map (·.value)
  { cpu :=
      { max := formatIntWithPercent (listMaxOrZero cpuValues)
        avg := formatIntWithPercent (listAvgOrZero cpuValues)
        count := store.cpu.length
        timestamp := latestTimestamp store.cpu }
    ram :=
      { max := formatIntWithPercent (listMaxOrZero ramValues)
        avg := formatIntWithPercent (listAvgOrZero ramValues)
        count := store.ram.length
        timestamp := latestTimestamp store.ram }
    disk :=
      { current := formatIntWithPercent (match diskValues.getLast? with
          | some v => v
          | none => 0)
        growth := formatGrowthGB store.diskGrowth
        count := store.disk.length
        timestamp := latestTimestamp store.disk } }

/-- `getStats` as it acts on the program state: the source function only
reads the module-level `store` variable and assigns nothing, so as a state
transformer it returns its result together with the unchanged store. -/
def getStatsS (store : StoreType) : StatsResult × StoreType :=
  (getStats store, store)

/-! ## Persistence (loadDataFromFile / saveDataToFile)

`loadDataFromFile` does `JSON.parse(data) as StoreType`: the cast performs no
validation, so the parsed value is an arbitrary JavaScript value.  We model
such values by a JSON inductive.  The file contents are modelled as
`Option Json`: `none` stands for "file missing, or `JSON.parse` threw a
syntax error"; `some j` for a successful parse yielding `j`. -/

/-- A parsed JavaScript (JSON) value. -/
inductive Json where
  | null : Json
  | bool : Bool → Json
  | num : ℚ → Json
  | str : String → Json
  | arr : List Json → Json
  | obj : List (String × Json) → Json

/-- `Array.isArray`. -/
def Json.isArray : Json → Bool
  | .arr _ => true
  | _ => false

/-- Property lookup `v.k` on a parsed value: `some w` when `v` is an object
with a field `k ↦ w`, otherwise `none` (JavaScript `undefined`).  Snapshot
objects written by `JSON.stringify` never repeat a key, so first-match
lookup is exact. -/
def Json.getField : Json → String → Option Json
  | .obj fields, k => (fields.find? (fun kv => kv.1 = k)).map (·.2)
  | _, _ => none

/-- The value of a JavaScript `ToNumber` coercion: `NaN`, an infinity, or a
finite value (idealized as an exact rational, consistently with the rest of
the embedding). -/
inductive JsNum where
  | nan : JsNum
  | posInf : JsNum
  | negInf : JsNum
  | fin : ℚ → JsNum

/-- The characters `StringToNumber` trims: ECMAScript WhiteSpace
(TAB VT FF SP NBSP ZWNBSP and Unicode Zs) and LineTerminator (LF CR LS PS). -/
def isJsWhite (c : Char) : Bool :=
  c = ' ' ∨ c = '\t' ∨ c = '\n' ∨ c = '\r' ∨ c = '\x0b' ∨ c = '\x0c' ∨
    c = '\u00A0' ∨ c = '\uFEFF' ∨ c = '\u1680' ∨
    ('\u2000' ≤ c ∧ c ≤ '\u200A') ∨ c = '\u2028' ∨ c = '\u2029' ∨
    c = '\u202F' ∨ c = '\u205F' ∨ c = '\u3000'

/-- Strip JS whitespace from both ends. -/
def trimJsWhite (cs : List Char) : List Char :=
  ((cs.dropWhile isJsWhite).reverse.dropWhile isJsWhite).reverse

/-- Decimal digit value of a character. -/
def decDigit (c : Char) : Option ℕ :=
  if '0' ≤ c ∧ c ≤ '9' then some (c.toNat - 48) else none

/-- Hexadecimal digit value of a character. -/
def hexDigit (c : Char) : Option ℕ :=
  if '0' ≤ c ∧ c ≤ '9' then some (c.toNat - 48)
  else if 'a' ≤ c ∧ c ≤ 'f' then some (c.toNat - 87)
  else if 'A' ≤ c ∧ c ≤ 'F' then some (c.toNat - 55)
  else none

/-- Octal digit value of a character. -/
def octDigit (c : Char) : Option ℕ :=
  if '0' ≤ c ∧ c ≤ '7' then some (c.toNat - 48) else none

/-- Binary digit value of a character. -/
def binDigit (c : Char) : Option ℕ :=
  if c = '0' ∨ c = '1' then some (c.toNat - 48) else none

/-- Split off the longest run of digits recognised by `f`. -/
def spanDigits (f : Char → Option ℕ) : List Char → List ℕ × List Char
  | [] => ([], [])
  | c :: cs =>
    match f c with
    | some d =>
      let (ds, rest) := spanDigits f cs
      (d :: ds, rest)
    | none => ([], c :: cs)

/-- Value of a most-significant-first digit list in base `b`. -/
def digitsVal (b : ℕ) (ds : List ℕ) : ℕ := ds.foldl (fun a d => a * b + d) 0

/-- Exponent digits after `e`/`E` and an optional sign; the rest of the
literal must be exactly these digits, and at least one is required. -/
def parseExpAfterE (neg : Bool) (cs : List Char) : Option ℤ :=
  let (ds, rest) := spanDigits decDigit cs
  if ds = [] ∨ rest ≠ [] then none
  else some (if neg then -(digitsVal 10 ds : ℤ) else (digitsVal 10 ds : ℤ))

/-- The `ExponentPart` of a decimal literal, consuming the whole rest. -/
def parseExpPart : List Char → Option ℤ
  | c :: rest =>
    if c = 'e' ∨ c = 'E' then
      match rest with
      | '+' :: r2 => parseExpAfterE false r2
      | '-' :: r2 => parseExpAfterE true r2
      | r2 => parseExpAfterE false r2
    else none
  | [] => none

/-- Exact value of `IP.FP × 10^ex`. -/
def decValue (ip fp : List ℕ) (ex : ℤ) : ℚ :=
  ((digitsVal 10 ip : ℚ) + (digitsVal 10 fp : ℚ) / (10 : ℚ) ^ fp.length) *
    (10 : ℚ) ^ ex

/-- An unsigned `StrUnsignedDecimalLiteral` without the `Infinity` form:
digits, an optional point with optional fraction digits (at least one digit
somewhere), and an optional exponent; the whole input must be consumed. -/
def parseDec (cs : List Char) : Option ℚ :=
  let (ip, r1) := spanDigits decDigit cs
  match r1 with
  | '.' :: r2 =>
    let (fp, r3) := spanDigits decDigit r2
    if ip = [] ∧ fp = [] then none
    else if r3 = [] then some (decValue ip fp 0)
    else (parseExpPart r3).map (decValue ip fp)
  | _ =>
    if ip = [] then none
    else if r1 = [] then some (decValue ip [] 0)
    else (parseExpPart r1).map (decValue ip [])

/-- `Infinity` or a decimal literal, with the sign already consumed. -/
def parseUnsignedDec (neg : Bool) (cs : List Char) : Option JsNum :=
  if cs = "Infinity".data then some (if neg then .negInf else .posInf)
  else (parseDec cs).map (fun q => .fin (if neg then -q else q))

/-- A `0x`/`0o`/`0b` integer body: digits of the base, all consumed. -/
def parseRadix (f : Char → Option ℕ) (b : ℕ) (cs : List Char) : Option JsNum :=
  let (ds, rest) := spanDigits f cs
  if ds = [] ∨ rest ≠ [] then none
  else some (.fin (digitsVal b ds : ℚ))

/-- A signed decimal literal (a sign is only legal on the decimal form). -/
def parseSignedDec : List Char → Option JsNum
  | '+' :: rest => parseUnsignedDec false rest
  | '-' :: rest => parseUnsignedDec true rest
  | cs => parseUnsignedDec false cs

/-- A complete `StrNumericLiteral`: a non-decimal integer (`0x`, `0o`, `0b`)
or a signed decimal literal. -/
def parseStrNumeric (cs : List Char) : Option JsNum :=
  match cs with
  | '0' :: x :: rest =>
    if x = 'x' ∨ x = 'X' then parseRadix hexDigit 16 rest
    else if x = 'o' ∨ x = 'O' then parseRadix octDigit 8 rest
    else if x = 'b' ∨ x = 'B' then parseRadix binDigit 2 rest
    else parseSignedDec ('0' :: x :: rest)
  | cs => parseSignedDec cs

/-- JavaScript `ToNumber` of a string (`StringToNumber`): trim whitespace,
empty gives 0, otherwise parse a `StrNumericLiteral`, `NaN` on failure. -/
def strToNumber (s : String) : JsNum :=
  match trimJsWhite s.data with
  | [] => .fin 0
  | cs =>
    match parseStrNumeric cs with
    | some v => v
    | none => .nan

/-- JavaScript `ToNumber` of the join string of a parsed array
(`Array.prototype.toString` joins with `","`): the empty array joins to `""`
(0); two or more elements always leave a `","` in the string, which no
numeric literal contains (`NaN`); a single element is rendered by `join` —
`null` as `""` (0), a number as its decimal string (which converts back to
the same value), a string as itself, `true`/`false` and plain objects as
non-numeric text (`NaN`), a nested array as its own join. -/
def jsArrToNumber : List Json → JsNum
  | [] => .fin 0
  | [.null] => .fin 0
  | [.num q] => .fin q
  | [.str s] => strToNumber s
  | [.bool _] => .nan
  | [.obj _] => .nan
  | [.arr ys] => jsArrToNumber ys
  | _ :: _ :: _ => .nan

/-- JavaScript `ToNumber` of a value produced by `JSON.parse` (such values
are plain, so `ToPrimitive` of an object is `"[object Object]"`, `NaN`). -/
def jsToNumber : Json → JsNum
  | .null => .fin 0
  | .bool b => .fin (if b then 1 else 0)
  | .num q => .fin q
  | .str s => strToNumber s
  | .obj _ => .nan
  | .arr xs => jsArrToNumber xs

/-- One evaluation of the filter callback `(m) => m.timestamp >= cutoff` in
`loadDataFromFile` on a parsed array element: `none` models the thrown
`TypeError` of a property access on `null` (`undefined` cannot occur in
`JSON.parse` output); otherwise `some` of the JS `>=` result — a missing
`timestamp` is `undefined`, which compares as `NaN` (false), and any other
value is coerced with `ToNumber`. -/
def jsonFresh (cutoff : ℤ) (m : Json) : Option Bool :=
  match m with
  | .null => none
  | _ =>
    match m.getField "timestamp" with
    | none => some false
    | some v =>
      match jsToNumber v with
      | .nan => some false
      | .posInf => some true
      | .negInf => some false
      | .fin q => some (decide ((cutoff : ℚ) ≤ q))

/-- `xs.filter((m) => m.timestamp >= cutoff)`: `none` when some callback
evaluation throws (the exception aborts the whole load). -/
def filterFresh (cutoff : ℤ) : List Json → Option (List Json)
  | [] => some []
  | m :: rest =>
    match jsonFresh cutoff m, filterFresh cutoff rest with
    | some true, some l => some (m :: l)
    | some false, some l => some l
    | _, _ => none

/-- One step of the `Object.keys(parsedData).forEach` loop in
`loadDataFromFile` on an object: any field other than `diskGrowth` whose
value is an array is replaced by its retention-filtered version (`none` when
the filter throws); every other field is left untouched. -/
def filterField (cutoff : ℤ) (kv : String × Json) : Option (String × Json) :=
  if kv.1 ≠ "diskGrowth" then
    match kv.2 with
    | .arr xs => (filterFresh cutoff xs).map (fun l => (kv.1, .arr l))
    | v => some (kv.1, v)
  else some kv

/-- The same loop step on an element of a top-level array (`Object.keys` of
an array enumerates its indices, none of which is `"diskGrowth"`). -/
def filterElem (cutoff : ℤ) (x : Json) : Option Json :=
  match x with
  | .arr xs => (filterFresh cutoff xs).map .arr
  | v => some v

/-- `function loadDataFromFile()` from index.ts, as a function of the parsed
file contents and the wall clock `now = Date.now()`.  Returns the value
assigned to `store` (`some`), or `none` when the `catch` branch runs: file
missing or unparseable, `Object.keys(null)` throwing a `TypeError`, or the
filter callback throwing on a `null` array element.  A value that parses
and filters without throwing is installed as-is — the `as StoreType` cast
validates nothing — with `Object.keys` enumerating an object's fields or an
array's indices, and leaving other primitives untouched (their boxed keys
carry no array values). -/
def loadDataFromFile (file : Option Json) (now : ℤ) : Option Json :=
  match file with
  | none => none
  | some .null => none
  | some (.obj fields) => (fields.mapM (filterField (now - RETENTION))).map .obj
  | some (.arr xs) => (xs.mapM (filterElem (now - RETENTION))).map .arr
  | some j => some j

/-- `JSON.stringify` image of one `MetricData`. -/
def encodeMetric (m : MetricData) : Json :=
  .obj [("timestamp", .num (m.timestamp : ℚ)), ("value", .num m.value)]

/-- `function saveDataToFile()` from index.ts: the snapshot written is
`JSON.stringify(store)`, i.e. the object with the three series and
`diskGrowth`, in declaration order. -/
def saveDataToFile (store : StoreType) : Json :=
  .obj
    [ ("cpu", .arr (store.cpu.map encodeMetric))
    , ("ram", .arr (store.ram.map encodeMetric))
    , ("disk", .arr (store.disk.map encodeMetric))
    , ("diskGrowth", .num store.diskGrowth) ]

/-- Reading one `MetricData` back from a parsed value: defined exactly when
the value is an object carrying a numeric integral `timestamp` and a numeric
`value`, i.e. the shape `JSON.stringify` produces. -/
def decodeMetric (j : Json) : Option MetricData :=
  match j.getField "timestamp", j.getField "value" with
  | some (.num t), some (.num v) =>
      if t.den = 1 then some ⟨t.num, v⟩ else none
  | _, _ => none

/-- Reading a whole series back from a parsed array: defined exactly when
every element decodes. -/
def decodeMetrics : List Json → Option (List MetricData)
  | [] => some []
  | x :: xs =>
    match decodeMetric x, decodeMetrics xs with
    | some m, some ms => some (m :: ms)
    | _, _ => none

/-- Reading a whole `StoreType` back from a parsed value: defined exactly
when the value has the schema `JSON.stringify(store)` produces.  This is the
typed view of the value `loadDataFromFile` installs as `store`; when it is
`none` the installed value is not a well-formed `StoreType` at all. -/
def decodeStore (j : Json) : Option StoreType :=
  match j.getField "cpu", j.getField "ram", j.getField "disk",
      j.getField "diskGrowth" with
  | some (.arr cs), some (.arr rs), some (.arr ds), some (.num g) =>
      match decodeMetrics cs, decodeMetrics rs, decodeMetrics ds with
      | some cpu, some ram, some disk => some ⟨cpu, ram, disk, g⟩
      | _, _, _ => none
  | _, _, _, _ => none

/-- All samples of a series lie within the retention window for `now`. -/
def withinRetention (now : ℤ) (l : List MetricData) : Prop :=
  ∀ m ∈ l, now - RETENTION ≤ m.timestamp

/-- The arguments of one sample-and-record cycle: the wall clock and the four
readings sampled at it. -/
structure RecordCall where
  now : ℤ
  cpu : ℚ
  ram : ℚ
  disk : ℚ
  cap : ℚ
  deriving DecidableEq, Repr

/-- Run a sequence of `update` cycles against the store, oldest first. -/
def runRecords (s : StoreType) : List RecordCall → StoreType
  | [] => s
  | rc :: rest => runRecords (update rc.now rc.cpu rc.ram rc.disk rc.cap s) rest

/-- The parsed contents of a syntactically valid snapshot file with an
incompatible schema: the `cpu` field is a number, not a sequence of samples,
and `diskGrowth` carries a nonzero value. -/
def badSnapshot : Json :=
  .obj [("cpu", .num 5), ("ram", .arr []), ("disk", .arr []), ("diskGrowth", .num 7)]

/-! ## Helper lemmas -/

theorem natDigitsGo_ne_nil (fuel n : ℕ) (h : 1 ≤ fuel) : natDigitsGo fuel n ≠ [] := by
  match fuel with
  | f + 1 =>
    simp only [natDigitsGo]
    split <;> simp

theorem natToStr_ne_zero (n : ℕ) (h : 1 ≤ n) : natToStr n ≠ "0" := by
  intro hs
  have hd : natDigitsGo (n + 1) n = ['0'] := congrArg String.data hs
  simp only [natDigitsGo] at hd
  split at hd
  · interval_cases n <;> exact absurd hd (by decide)
  · have hlen := congrArg List.length hd
    simp at hlen
    exact natDigitsGo_ne_nil n (n / 10) (by omega) hlen

theorem intToStr_ne_zero (z : ℤ) (h : 1 ≤ z) : intToStr z ≠ "0" := by
  unfold intToStr
  rw [if_neg (by omega)]
  exact natToStr_ne_zero _ (by omega)

theorem formatTenths_ne_zero (z : ℤ) (h : 1 ≤ z) : formatTenths z ≠ "0" := by
  unfold formatTenths
  split
  · exact intToStr_ne_zero _ (by omega)
  · intro hs
    have hd := congrArg String.data hs
    simp only [String.data_append] at hd
    rcases hq : (intToStr (z / 10)).data with _ | ⟨c, cs⟩ <;>
      simp [hq] at hd

theorem plus_wrap_ne_pm (x : String) : "+ " ++ x ++ " GB" ≠ "±0 GB" := by
  intro h
  have hd := congrArg String.data h
  simp [String.data_append] at hd

theorem minus_wrap_ne_pm (x : String) : "- " ++ x ++ " GB" ≠ "±0 GB" := by
  intro h
  have hd := congrArg String.data h
  simp [String.data_append] at hd

theorem plus_wrap_inj (x y : String) (h : "+ " ++ x ++ " GB" = "+ " ++ y ++ " GB") :
    x = y := by
  have hd := congrArg String.data h
  simp only [String.data_append] at hd
  exact String.ext (by simpa using hd)

theorem minus_wrap_inj (x y : String) (h : "- " ++ x ++ " GB" = "- " ++ y ++ " GB") :
    x = y := by
  have hd := congrArg String.data h
  simp only [String.data_append] at hd
  exact String.ext (by simpa using hd)

theorem update_cpu (now : ℤ) (c r d cap : ℚ) (s : StoreType) :
    (update now c r d cap s).cpu = purge now (s.cpu ++ [⟨now, c⟩]) := by
  unfold update
  split
  · dsimp only
    split <;> rfl
  · rfl

theorem update_ram (now : ℤ) (c r d cap : ℚ) (s : StoreType) :
    (update now c r d cap s).ram = purge now (s.ram ++ [⟨now, r⟩]) := by
  unfold update
  split
  · dsimp only
    split <;> rfl
  · rfl

theorem update_disk (now : ℤ) (c r d cap : ℚ) (s : StoreType) :
    (update now c r d cap s).disk = purge now (s.disk ++ [⟨now, d⟩]) := by
  unfold update
  split
  · dsimp only
    split <;> rfl
  · rfl

theorem update_diskGrowth_last (now : ℤ) (c r d cap : ℚ) (s : StoreType)
    (lastDisk : MetricData) (hl : s.disk.getLast? = some lastDisk) :
    (update now c r d cap s).diskGrowth =
      if 0 < ((now : ℚ) - (lastDisk.timestamp : ℚ)) / (1000 * 60 * 60) then
        (d - lastDisk.value) / 100 * cap / (((now : ℚ) - (lastDisk.timestamp : ℚ)) / (1000 * 60 * 60))
      else s.diskGrowth := by
  unfold update
  rw [hl]
  dsimp only
  split <;> rfl

theorem update_diskGrowth_nil (now : ℤ) (c r d cap : ℚ) (s : StoreType)
    (hl : s.disk.getLast? = none) :
    (update now c r d cap s).diskGrowth = s.diskGrowth := by
  unfold update
  rw [hl]

theorem mem_purge (now : ℤ) (l : List MetricData) (m : MetricData)
    (h : m ∈ purge now l) : now - RETENTION ≤ m.timestamp := by
  have := List.mem_filter.mp h
  simpa using this.2

theorem filterField_key (c : ℤ) (kv kv' : String × Json)
    (h : filterField c kv = some kv') : kv'.1 = kv.1 := by
  unfold filterField at h
  split at h
  · split at h
    · obtain ⟨l, hl, rfl⟩ := Option.map_eq_some'.mp h
      rfl
    · obtain rfl := Option.some.inj h
      rfl
  · obtain rfl := Option.some.inj h
    rfl

theorem getField_mapM_filterField (c : ℤ) (fields fields' : List (String × Json))
    (k : String) (hm : fields.mapM (filterField c) = some fields') :
    (Json.obj fields').getField k =
      ((Json.obj fields).getField k).bind
        (fun v => (filterField c (k, v)).map Prod.snd) := by
  induction fields generalizing fields' with
  | nil =>
    simp only [List.mapM_nil, Option.pure_def] at hm
    obtain rfl := Option.some.inj hm
    rfl
  | cons kv rest ih =>
    rw [List.mapM_cons] at hm
    cases hkv : filterField c kv <;> rw [hkv] at hm
    · exact absurd hm (by simp)
    case some kv' =>
    cases hrest : rest.mapM (filterField c) <;> rw [hrest] at hm
    · exact absurd hm (by simp)
    case some rest' =>
    simp only [Option.some_bind, Option.pure_def] at hm
    obtain rfl := Option.some.inj hm
    have hk1 : kv'.1 = kv.1 := filterField_key c kv kv' hkv
    by_cases hkk : kv.1 = k
    · simp only [Json.getField, List.find?_cons, hk1, hkk, decide_True, Option.map_some',
        Option.some_bind]
      rw [← hkk, show (kv.1, kv.2) = kv from rfl, hkv]
      rfl
    · have hd1 : (decide (kv'.1 = k)) = false := by simp [hk1, hkk]
      have hd2 : (decide (kv.1 = k)) = false := by simp [hkk]
      simp only [Json.getField, List.find?_cons, hd1, hd2]
      exact ih rest' hrest

theorem filterField_some_arr (c : ℤ) (k : String) (hk : ¬k = "diskGrowth") (v : Json)
    (kv' : String × Json) (cs : List Json)
    (hf : filterField c (k, v) = some kv') (h2 : kv'.2 = .arr cs) :
    ∃ ys : List Json, filterFresh c ys = some cs := by
  unfold filterField at hf
  rw [if_pos hk] at hf
  cases v with
  | arr ys =>
    obtain ⟨l, hl, rfl⟩ := Option.map_eq_some'.mp hf
    simp only at h2
    obtain rfl : l = cs := by injection h2
    exact ⟨ys, hl⟩
  | null => obtain rfl := Option.some.inj hf; exact absurd h2 (by simp)
  | bool b => obtain rfl := Option.some.inj hf; exact absurd h2 (by simp)
  | num q => obtain rfl := Option.some.inj hf; exact absurd h2 (by simp)
  | str t => obtain rfl := Option.some.inj hf; exact absurd h2 (by simp)
  | obj fs => obtain rfl := Option.some.inj hf; exact absurd h2 (by simp)

theorem mem_filterFresh (c : ℤ) (ys l : List Json) (h : filterFresh c ys = some l)
    (x : Json) (hx : x ∈ l) : jsonFresh c x = some true := by
  induction ys generalizing l with
  | nil =>
    unfold filterFresh at h
    obtain rfl := Option.some.inj h
    simp at hx
  | cons y rest ih =>
    unfold filterFresh at h
    cases hy : jsonFresh c y <;> rw [hy] at h
    · exact absurd h (by simp)
    case some b =>
    cases hrest : filterFresh c rest <;> rw [hrest] at h
    · cases b <;> exact absurd h (by simp)
    case some l0 =>
    cases b
    · obtain rfl := Option.some.inj h
      exact ih l0 hrest hx
    · obtain rfl := Option.some.inj h
      rcases List.mem_cons.mp hx with rfl | hx2
      · exact hy
      · exact ih l0 hrest hx2

theorem getField_encodeMetric_timestamp (m : MetricData) :
    (encodeMetric m).getField "timestamp" = some (.num (m.timestamp : ℚ)) := rfl

theorem getField_encodeMetric_value (m : MetricData) :
    (encodeMetric m).getField "value" = some (.num m.value) := rfl

theorem jsonFresh_encodeMetric (c : ℤ) (m : MetricData) :
    jsonFresh c (encodeMetric m) = some (decide (c ≤ m.timestamp)) := by
  have h : jsonFresh c (encodeMetric m) =
      some (decide ((c : ℚ) ≤ (m.timestamp : ℚ))) := rfl
  rw [h]
  congr 1
  rw [decide_eq_decide]
  exact Int.cast_le

theorem decodeMetric_encodeMetric (m : MetricData) :
    decodeMetric (encodeMetric m) = some m := by
  unfold decodeMetric
  rw [getField_encodeMetric_timestamp, getField_encodeMetric_value]
  simp

theorem decodeMetrics_map_encode (l : List MetricData) :
    decodeMetrics (l.map encodeMetric) = some l := by
  induction l with
  | nil => rfl
  | cons m rest ih =>
    simp only [List.map_cons, decodeMetrics, decodeMetric_encodeMetric, ih]

theorem decodeMetrics_mem (xs : List Json) (ms : List MetricData)
    (h : decodeMetrics xs = some ms) (m : MetricData) (hm : m ∈ ms) :
    ∃ x ∈ xs, decodeMetric x = some m := by
  induction xs generalizing ms with
  | nil =>
    unfold decodeMetrics at h
    obtain rfl := Option.some.inj h
    simp at hm
  | cons x rest ih =>
    unfold decodeMetrics at h
    cases hx : decodeMetric x <;> rw [hx] at h
    · exact absurd h (by simp)
    cases hrest : decodeMetrics rest <;> rw [hrest] at h
    · exact absurd h (by simp)
    obtain rfl := Option.some.inj h
    rcases List.mem_cons.mp hm with rfl | hm2
    · exact ⟨x, List.mem_cons_self _ _, hx⟩
    · obtain ⟨y, hy, hdy⟩ := ih _ hrest hm2
      exact ⟨y, List.mem_cons_of_mem _ hy, hdy⟩

theorem decodeMetric_fresh (c : ℤ) (x : Json) (m : MetricData)
    (hf : jsonFresh c x = some true) (hd : decodeMetric x = some m) :
    c ≤ m.timestamp := by
  unfold decodeMetric at hd
  cases x with
  | obj fs =>
    simp only [jsonFresh] at hf
    cases ht : (Json.obj fs).getField "timestamp" <;> rw [ht] at hf hd
    · simp at hf
    case some t =>
    cases t
    case num q =>
      cases hv : (Json.obj fs).getField "value" <;> rw [hv] at hd
      · simp at hd
      case some v =>
      cases v <;> simp at hd
      case num w =>
        rcases hd with ⟨hden, hm⟩
        simp only [jsToNumber] at hf
        have hcq : (c : ℚ) ≤ q := by simpa using hf
        have hq : (q.num : ℚ) = q := (Rat.den_eq_one_iff q).mp hden
        subst hm
        show c ≤ q.num
        have hc : (c : ℚ) ≤ (q.num : ℚ) := by rw [hq]; exact hcq
        exact_mod_cast hc
    all_goals simp at hd
  | null => simp [Json.getField] at hd
  | bool b => simp [Json.getField] at hd
  | num q => simp [Json.getField] at hd
  | str t => simp [Json.getField] at hd
  | arr xs => simp [Json.getField] at hd

theorem decodeMetrics_filterFresh_bound (c : ℤ) (ys cs : List Json)
    (ms : List MetricData) (hfil : filterFresh c ys = some cs)
    (hdec : decodeMetrics cs = some ms) :
    ∀ m ∈ ms, c ≤ m.timestamp := by
  intro m hm
  obtain ⟨x, hx, hdx⟩ := decodeMetrics_mem _ _ hdec m hm
  exact decodeMetric_fresh c x m (mem_filterFresh c ys cs hfil x hx) hdx

theorem decodeStore_filtered_within (now : ℤ) (fields fields' : List (String × Json))
    (s' : StoreType)
    (hmm : fields.mapM (filterField (now - RETENTION)) = some fields')
    (h : decodeStore (.obj fields') = some s') :
    withinRetention now s'.cpu ∧ withinRetention now s'.ram ∧
      withinRetention now s'.disk := by
  unfold decodeStore at h
  rw [getField_mapM_filterField _ _ _ "cpu" hmm, getField_mapM_filterField _ _ _ "ram" hmm,
    getField_mapM_filterField _ _ _ "disk" hmm,
    getField_mapM_filterField _ _ _ "diskGrowth" hmm] at h
  split at h <;> try exact Option.noConfusion h
  split at h <;> try exact Option.noConfusion h
  rename_i o1 o2 o3 o4 cs rs ds g hcpu hram hdisk hg p1 p2 p3 cpu ram disk hdc hdr hdd
  obtain rfl := Option.some.inj h
  obtain ⟨vc, hvc, hfc⟩ := Option.bind_eq_some.mp hcpu
  obtain ⟨kvc, hkvc, hkvc2⟩ := Option.map_eq_some'.mp hfc
  obtain ⟨ysc, hysc⟩ := filterField_some_arr _ "cpu" (by decide) vc kvc cs hkvc hkvc2
  obtain ⟨vr, hvr, hfr⟩ := Option.bind_eq_some.mp hram
  obtain ⟨kvr, hkvr, hkvr2⟩ := Option.map_eq_some'.mp hfr
  obtain ⟨ysr, hysr⟩ := filterField_some_arr _ "ram" (by decide) vr kvr rs hkvr hkvr2
  obtain ⟨vd, hvd, hfd⟩ := Option.bind_eq_some.mp hdisk
  obtain ⟨kvd, hkvd, hkvd2⟩ := Option.map_eq_some'.mp hfd
  obtain ⟨ysd, hysd⟩ := filterField_some_arr _ "disk" (by decide) vd kvd ds hkvd hkvd2
  exact ⟨decodeMetrics_filterFresh_bound _ _ _ _ hysc hdc,
    decodeMetrics_filterFresh_bound _ _ _ _ hysr hdr,
    decodeMetrics_filterFresh_bound _ _ _ _ hysd hdd⟩

theorem load_decoded_within (now : ℤ) (file : Option Json) (s' : StoreType)
    (h : (loadDataFromFile file now).bind decodeStore = some s') :
    withinRetention now s'.cpu ∧ withinRetention now s'.ram ∧
      withinRetention now s'.disk := by
  match file with
  | none => simp [loadDataFromFile] at h
  | some .null => simp [loadDataFromFile] at h
  | some (.bool b) => simp [loadDataFromFile, decodeStore, Json.getField] at h
  | some (.num q) => simp [loadDataFromFile, decodeStore, Json.getField] at h
  | some (.str t) => simp [loadDataFromFile, decodeStore, Json.getField] at h
  | some (.arr xs) =>
    simp only [loadDataFromFile] at h
    cases hmm : xs.mapM (filterElem (now - RETENTION)) <;> rw [hmm] at h
    · simp at h
    · simp [decodeStore, Json.getField] at h
  | some (.obj fields) =>
    simp only [loadDataFromFile] at h
    cases hmm : fields.mapM (filterField (now - RETENTION)) <;> rw [hmm] at h
    · simp at h
    case some fields' =>
      simp only [Option.map_some', Option.some_bind] at h
      exact decodeStore_filtered_within now fields fields' s' hmm h

theorem filterFresh_encoded (c : ℤ) (l : List MetricData)
    (hl : ∀ m ∈ l, c ≤ m.timestamp) :
    filterFresh c (l.map encodeMetric) = some (l.map encodeMetric) := by
  induction l with
  | nil => rfl
  | cons m rest ih =>
    have hm : jsonFresh c (encodeMetric m) = some true := by
      rw [jsonFresh_encodeMetric]
      simp [hl m (List.mem_cons_self _ _)]
    simp only [List.map_cons, filterFresh, hm,
      ih (fun m2 hm2 => hl m2 (List.mem_cons_of_mem _ hm2))]

theorem filterField_encoded_series (c : ℤ) (k : String) (hk : ¬k = "diskGrowth")
    (l : List MetricData) (hl : ∀ m ∈ l, c ≤ m.timestamp) :
    filterField c (k, .arr (l.map encodeMetric)) =
      some (k, .arr (l.map encodeMetric)) := by
  unfold filterField
  rw [if_pos hk]
  dsimp only
  rw [filterFresh_encoded c l hl]
  rfl

theorem filterField_diskGrowth (c : ℤ) (v : Json) :
    filterField c ("diskGrowth", v) = some ("diskGrowth", v) := by
  unfold filterField
  rw [if_neg (by simp)]

theorem decodeStore_saveDataToFile (s : StoreType) :
    decodeStore (saveDataToFile s) = some s := by
  have h1 : (saveDataToFile s).getField "cpu" = some (.arr (s.cpu.map encodeMetric)) := rfl
  have h2 : (saveDataToFile s).getField "ram" = some (.arr (s.ram.map encodeMetric)) := rfl
  have h3 : (saveDataToFile s).getField "disk" = some (.arr (s.disk.map encodeMetric)) := rfl
  have h4 : (saveDataToFile s).getField "diskGrowth" = some (.num s.diskGrowth) := rfl
  unfold decodeStore
  rw [h1, h2, h3, h4]
  simp [decodeMetrics_map_encode]

theorem load_save_eq (now : ℤ) (s : StoreType)
    (h : ∀ m ∈ s.cpu ++ s.ram ++ s.disk, now - RETENTION ≤ m.timestamp) :
    loadDataFromFile (some (saveDataToFile s)) now = some (saveDataToFile s) := by
  unfold saveDataToFile loadDataFromFile
  dsimp only
  rw [List.mapM_cons, List.mapM_cons, List.mapM_cons, List.mapM_cons, List.mapM_nil]
  rw [filterField_encoded_series _ _ (by decide) _ (fun m hm => h m (by simp [hm])),
    filterField_encoded_series _ _ (by decide) _ (fun m hm => h m (by simp [hm])),
    filterField_encoded_series _ _ (by decide) _ (fun m hm => h m (by simp [hm])),
    filterField_diskGrowth]
  rfl

theorem update_within (now : ℤ) (c r d cap : ℚ) (s : StoreType) :
    withinRetention now ((update now c r d cap s).cpu ++
      (update now c r d cap s).ram ++ (update now c r d cap s).disk) := by
  intro m hm
  rcases List.mem_append.mp hm with hm2 | hm3
  · rcases List.mem_append.mp hm2 with hc | hr
    · rw [update_cpu] at hc
      exact mem_purge _ _ _ hc
    · rw [update_ram] at hr
      exact mem_purge _ _ _ hr
  · rw [update_disk] at hm3
    exact mem_purge _ _ _ hm3

theorem runRecords_last_within (s : StoreType) (calls : List RecordCall)
    (lc : RecordCall) (hl : calls.getLast? = some lc) :
    withinRetention lc.now ((runRecords s calls).cpu ++
      (runRecords s calls).ram ++ (runRecords s calls).disk) := by
  induction calls generalizing s with
  | nil => exact absurd hl (by simp)
  | cons rc rest ih =>
    cases rest with
    | nil =>
      obtain rfl : rc = lc := by simpa using hl
      exact update_within rc.now rc.cpu rc.ram rc.disk rc.cap s
    | cons y ys =>
      exact ih _ (by simpa [List.getLast?_cons_cons] using hl)

theorem plus_wrap_ne_plus_zero (z : ℤ) (h1 : 1 ≤ z)
    (h : "+ " ++ formatTenths z ++ " GB" = "+ 0 GB") : False := by
  have : formatTenths z = "0" := plus_wrap_inj _ _ h
  exact formatTenths_ne_zero z h1 this

theorem minus_wrap_ne_minus_zero (z : ℤ) (h1 : 1 ≤ z)
    (h : "- " ++ formatTenths z ++ " GB" = "- 0 GB") : False := by
  have : formatTenths z = "0" := minus_wrap_inj _ _ h
  exact formatTenths_ne_zero z h1 this

theorem plus_wrap_ne_minus_zero (x : String) : "+ " ++ x ++ " GB" ≠ "- 0 GB" := by
  intro h
  have hd := congrArg String.data h
  simp [String.data_append] at hd

theorem minus_wrap_ne_plus_zero (x : String) : "- " ++ x ++ " GB" ≠ "+ 0 GB" := by
  intro h
  have hd := congrArg String.data h
  simp [String.data_append] at hd

theorem jsRound_tenths_ge_one (r : ℚ) (h : 1 / 20 ≤ |r|) : 1 ≤ jsRound (|r| * 10) := by
  unfold jsRound
  rw [Int.le_floor]
  push_cast
  linarith [abs_nonneg r]

/-! ## Claims -/

/-- **C1** Retention invariant: after any public operation returns (a
record/update cycle using the timestamp passed to it as `now`, or a snapshot
load using the current wall-clock time), every sample remaining in each of
the cpu, ram and disk series has timestamp `≥ now - 3_600_000` ms; in
particular, after any sequence of record calls, no series retains a sample
older than the last call's `now` minus the retention window. -/
theorem retention_invariant (now : ℤ) (cpu ram disk cap : ℚ) (s s' : StoreType)
    (file : Option Json) (calls : List RecordCall) (lc : RecordCall)
    (hload : (loadDataFromFile file now).bind decodeStore = some s')
    (hlast : calls.getLast? = some lc) :
    withinRetention now ((update now cpu ram disk cap s).cpu ++
      (update now cpu ram disk cap s).ram ++ (update now cpu ram disk cap s).disk) ∧
    withinRetention now (s'.cpu ++ s'.ram ++ s'.disk) ∧
    withinRetention lc.now ((runRecords s calls).cpu ++
      (runRecords s calls).ram ++ (runRecords s calls).disk) := by
  refine ⟨update_within now cpu ram disk cap s, ?_, runRecords_last_within s calls lc hlast⟩
  obtain ⟨h1, h2, h3⟩ := load_decoded_within now file s' hload
  intro m hm
  rcases List.mem_append.mp hm with hm2 | hm3
  · rcases List.mem_append.mp hm2 with hc | hr
    · exact h1 m hc
    · exact h2 m hr
  · exact h3 m hm3

/-- Witness for **C1** at a concrete input: one record cycle at `now = 0` on
the empty store, a load of the snapshot of the empty store, and the
single-call sequence. -/
theorem retention_invariant_witness :
    withinRetention 0 ((update 0 1 2 3 4 emptyStore).cpu ++
      (update 0 1 2 3 4 emptyStore).ram ++ (update 0 1 2 3 4 emptyStore).disk) ∧
    withinRetention 0 (emptyStore.cpu ++ emptyStore.ram ++ emptyStore.disk) ∧
    withinRetention (RecordCall.mk 0 1 2 3 4).now
      ((runRecords emptyStore [⟨0, 1, 2, 3, 4⟩]).cpu ++
        (runRecords emptyStore [⟨0, 1, 2, 3, 4⟩]).ram ++
        (runRecords emptyStore [⟨0, 1, 2, 3, 4⟩]).disk) :=
  retention_invariant 0 1 2 3 4 emptyStore emptyStore
    (some (saveDataToFile emptyStore)) [⟨0, 1, 2, 3, 4⟩] ⟨0, 1, 2, 3, 4⟩ rfl rfl

/-- **C2** Disk growth update rule: on a record of the Disk kind, if the disk
series is non-empty and `elapsedHours = (timestamp - lastSample.timestamp) /
3_600_000` is strictly positive, `diskGrowth` is set to
`((value - lastSample.value) / 100) * diskCapacityGB / elapsedHours`; if the
disk series is empty or `elapsedHours ≤ 0`, `diskGrowth` is left unchanged. -/
theorem disk_growth_rule (now : ℤ) (cpu ram disk cap : ℚ) (s : StoreType) :
    (∀ lastDisk, s.disk.getLast? = some lastDisk →
      (0 < ((now : ℚ) - (lastDisk.timestamp : ℚ)) / 3600000 →
        (update now cpu ram disk cap s).diskGrowth =
          (disk - lastDisk.value) / 100 * cap /
            (((now : ℚ) - (lastDisk.timestamp : ℚ)) / 3600000)) ∧
      (((now : ℚ) - (lastDisk.timestamp : ℚ)) / 3600000 ≤ 0 →
        (update now cpu ram disk cap s).diskGrowth = s.diskGrowth)) ∧
    (s.disk = [] → (update now cpu ram disk cap s).diskGrowth = s.diskGrowth) := by
  have e : ((1000 * 60 * 60 : ℚ)) = 3600000 := by norm_num
  constructor
  · intro lastDisk hl
    rw [update_diskGrowth_last now cpu ram disk cap s lastDisk hl, e]
    constructor
    · intro hpos
      rw [if_pos hpos]
    · intro hnp
      rw [if_neg (not_lt.mpr hnp)]
  · intro hnil
    exact update_diskGrowth_nil now cpu ram disk cap s (by simp [hnil])

/-- Witness for **C2** at a concrete input: prior disk sample at time 0 with
value 40, new record one hour later with value 45 and capacity 100. -/
theorem disk_growth_rule_witness :
    (update 3600000 1 2 45 100 ⟨[], [], [⟨0, 40⟩], 0⟩).diskGrowth =
      (45 - (40 : ℚ)) / 100 * 100 /
        ((((3600000 : ℤ) : ℚ) - ((0 : ℤ) : ℚ)) / 3600000) :=
  ((disk_growth_rule 3600000 1 2 45 100 ⟨[], [], [⟨0, 40⟩], 0⟩).1
    ⟨0, 40⟩ rfl).1 (by norm_num)

/-- **C3** Growth dead-zone formatting: the growth string is `"±0 GB"` iff
`|r| < 0.05`; otherwise it is a `"+ "` or `"- "` prefix (by the sign of `r`)
followed by `|r|` rounded to one decimal place and `" GB"`; in particular
`0.049` formats as `"±0 GB"` and `0.05` as `"+ 0.1 GB"`. -/
theorem growth_deadzone (r : ℚ) :
    (formatGrowthGB r = "±0 GB" ↔ |r| < 1 / 20) ∧
    (1 / 20 ≤ |r| →
      formatGrowthGB r =
        (if 0 < r then "+ " else "- ") ++ formatTenths (jsRound (|r| * 10)) ++ " GB") ∧
    formatGrowthGB (49 / 1000) = "±0 GB" ∧ formatGrowthGB (1 / 20) = "+ 0.1 GB" := by
  have hbr : ∀ q : ℚ, 1 / 20 ≤ |q| →
      formatGrowthGB q =
        (if 0 < q then "+ " else "- ") ++ formatTenths (jsRound (|q| * 10)) ++ " GB" := by
    intro q hq
    unfold formatGrowthGB
    rw [if_neg (not_lt.mpr hq)]
    by_cases hqp : 0 < q
    · rw [if_pos hqp, if_pos hqp, abs_of_pos hqp]
    · rw [if_neg hqp, if_neg hqp]
  have habs2 : |(1 / 20 : ℚ)| = 1 / 20 := abs_of_pos (by norm_num)
  have hj : jsRound (1 / 20 * 10) = 1 := by unfold jsRound; norm_num
  refine ⟨⟨?_, ?_⟩, hbr r, ?_, ?_⟩
  · intro h
    by_contra hge
    rw [hbr r (not_lt.mp hge)] at h
    by_cases hrp : 0 < r
    · rw [if_pos hrp] at h
      exact plus_wrap_ne_pm _ h
    · rw [if_neg hrp] at h
      exact minus_wrap_ne_pm _ h
  · intro h
    unfold formatGrowthGB
    rw [if_pos h]
  · unfold formatGrowthGB
    rw [if_pos (by rw [abs_of_pos (by norm_num : (0 : ℚ) < 49 / 1000)]; norm_num)]
  · rw [hbr (1 / 20) (le_of_eq habs2.symm), if_pos (by norm_num), habs2, hj]
    decide

/-- Witness for **C3** at `r = 1/20`: the non-dead-zone branch of the
formatting law. -/
theorem growth_deadzone_witness :
    formatGrowthGB (1 / 20) =
      (if 0 < (1 / 20 : ℚ) then "+ " else "- ") ++
        formatTenths (jsRound (|(1 / 20 : ℚ)| * 10)) ++ " GB" :=
  (growth_deadzone (1 / 20)).2.1 (le_abs_self _)

/-- **C4** Persistence round-trip: for every Store whose samples all lie
within the retention window at save time, loading the snapshot produced by
save yields the original Store back (the three series are unchanged by the
load-time retention filter, and `diskGrowth` is preserved). -/
theorem persistence_roundtrip (now : ℤ) (s : StoreType)
    (h : ∀ m ∈ s.cpu ++ s.ram ++ s.disk, now - RETENTION ≤ m.timestamp) :
    (loadDataFromFile (some (saveDataToFile s)) now).bind decodeStore = some s := by
  rw [load_save_eq now s h, Option.some_bind, decodeStore_saveDataToFile]

/-- Witness for **C4** at a concrete store with fresh samples. -/
theorem persistence_roundtrip_witness :
    (loadDataFromFile (some (saveDataToFile ⟨[⟨5, 10⟩], [], [⟨5, 20⟩], 3⟩)) 5).bind
        decodeStore = some ⟨[⟨5, 10⟩], [], [⟨5, 20⟩], 3⟩ :=
  persistence_roundtrip 5 ⟨[⟨5, 10⟩], [], [⟨5, 20⟩], 3⟩ (by decide)

/-- **C5** (corrected) Snapshot decode fallback: load returns absent —
keeping the empty default Store and propagating nothing — when the snapshot
file is missing, when `JSON.parse` throws, and also when the filtering step
itself throws a `TypeError` (a parsed `null`, on which `Object.keys` throws,
or a `null` element inside a filtered array field, on which the callback's
property access throws).  An incompatible schema is NOT by itself a parse
failure: a snapshot that parses and filters without throwing, such as
`{"cpu": 5, "ram": [], "disk": [], "diskGrowth": 7}`, is installed as the
store unchanged, and it is not a well-formed Store. -/
theorem snapshot_fallback_amended (now : ℤ) :
    loadDataFromFile none now = none ∧
    loadDataFromFile (some .null) now = none ∧
    loadDataFromFile
      (some (.obj [("cpu", .arr [.null]), ("ram", .arr []), ("disk", .arr []),
        ("diskGrowth", .num 0)])) now = none ∧
    loadDataFromFile (some badSnapshot) now = some badSnapshot ∧
    (loadDataFromFile (some badSnapshot) now).bind decodeStore = none :=
  ⟨rfl, rfl, rfl, rfl, rfl⟩

/-- Counterexample for **C5** as stated: the incompatible-schema snapshot
`{"cpu": 5, "ram": [], "disk": [], "diskGrowth": 7}` parses, so load does
NOT return absent — it installs the malformed value itself (which is not a
well-formed Store, let alone the empty one). -/
theorem snapshot_fallback_cex :
    loadDataFromFile (some badSnapshot) 0 = some badSnapshot ∧
    loadDataFromFile (some badSnapshot) 0 ≠ none ∧
    decodeStore badSnapshot = none := by
  refine ⟨rfl, ?_, rfl⟩
  intro h
  rw [show loadDataFromFile (some badSnapshot) 0 = some badSnapshot from rfl] at h
  exact Option.noConfusion h

/-- **C6** Empty-store boundary: `statistics()` on the empty Store returns
`max = "0%"`, `avg = "0%"`, `count = 0`, `timestamp = 0` for CPU and RAM,
and `current = "0%"`, `growth = "±0 GB"`, `count = 0`, `timestamp = 0` for
Disk. -/
theorem stats_empty_store :
    getStats emptyStore =
      { cpu := { max := "0%", avg := "0%", count := 0, timestamp := 0 }
        ram := { max := "0%", avg := "0%", count := 0, timestamp := 0 }
        disk := { current := "0%", growth := "±0 GB", count := 0, timestamp := 0 } } := by
  have h0 : formatIntWithPercent 0 = "0%" := by
    unfold formatIntWithPercent roundInt jsRound
    rw [show ⌊(0 : ℚ) + 1 / 2⌋ = 0 from by norm_num]
    decide
  have hg : formatGrowthGB 0 = "±0 GB" := by
    unfold formatGrowthGB
    rw [if_pos (by rw [abs_zero]; norm_num)]
  show StatsResult.mk
      ⟨formatIntWithPercent 0, formatIntWithPercent 0, 0, 0⟩
      ⟨formatIntWithPercent 0, formatIntWithPercent 0, 0, 0⟩
      ⟨formatIntWithPercent 0, formatGrowthGB 0, 0, 0⟩ = _
  rw [h0, hg]

/-- **C7** Exact disk growth example: with a prior Disk sample
`{timestamp: t0, value: 40}`, capacity 100 GB and a new Disk record at
`t0 + 3_600_000` with value 45, the resulting `diskGrowth` is exactly 5. -/
theorem disk_growth_example (t0 : ℤ) (c r g : ℚ) (cl rl : List MetricData) :
    (update (t0 + 3600000) c r 45 100 ⟨cl, rl, [⟨t0, 40⟩], g⟩).diskGrowth = 5 := by
  rw [update_diskGrowth_last (t0 + 3600000) c r 45 100 ⟨cl, rl, [⟨t0, 40⟩], g⟩ ⟨t0, 40⟩ rfl]
  rw [if_pos (by push_cast; norm_num)]
  push_cast
  ring_nf

/-- **C8** Idempotence of statistics: calling `statistics()` twice with no
record call in between yields two identical outputs (the second call runs on
the state left by the first). -/
theorem stats_idempotent (s : StoreType) :
    (getStatsS ((getStatsS s).2)).1 = (getStatsS s).1 := rfl

/-- **C9** `statistics()`/`getStats` is a pure read: computing statistics
leaves the Store entirely unchanged — all three series and `diskGrowth` are
identical before and after the call. -/
theorem stats_pure_read (s : StoreType) :
    (getStatsS s).2 = s ∧ (getStatsS s).2.cpu = s.cpu ∧ (getStatsS s).2.ram = s.ram ∧
      (getStatsS s).2.disk = s.disk ∧ (getStatsS s).2.diskGrowth = s.diskGrowth :=
  ⟨rfl, rfl, rfl, rfl, rfl⟩

/-- **C10** The growth string never displays a signed zero: for `|r| ≥ 0.05`
the rounded magnitude is at least 0.1, the output is neither `"+ 0 GB"` nor
`"- 0 GB"`, and the digits shown depend only on `|r|` (rates of equal
magnitude and opposite sign show the same number). -/
theorem growth_no_signed_zero (r : ℚ) (h : 1 / 20 ≤ |r|) :
    1 / 10 ≤ roundRawNum |r| ∧
    formatGrowthGB r ≠ "+ 0 GB" ∧ formatGrowthGB r ≠ "- 0 GB" ∧
    formatGrowthGB |r| = "+ " ++ formatTenths (jsRound (|r| * 10)) ++ " GB" ∧
    formatGrowthGB (-|r|) = "- " ++ formatTenths (jsRound (|r| * 10)) ++ " GB" := by
  have hz : 1 ≤ jsRound (|r| * 10) := jsRound_tenths_ge_one r h
  have habs : 0 < |r| := lt_of_lt_of_le (by norm_num) h
  refine ⟨?_, ?_, ?_, ?_, ?_⟩
  · unfold roundRawNum
    have : (1 : ℚ) ≤ (jsRound (|r| * 10) : ℚ) := by exact_mod_cast hz
    linarith
  · unfold formatGrowthGB
    rw [if_neg (not_lt.mpr h)]
    by_cases hrp : 0 < r
    · rw [if_pos hrp, abs_of_pos hrp] at *
      intro hcon
      exact plus_wrap_ne_plus_zero _ hz hcon
    · rw [if_neg hrp]
      exact minus_wrap_ne_plus_zero _
  · unfold formatGrowthGB
    rw [if_neg (not_lt.mpr h)]
    by_cases hrp : 0 < r
    · rw [if_pos hrp]
      exact plus_wrap_ne_minus_zero _
    · rw [if_neg hrp]
      intro hcon
      exact minus_wrap_ne_minus_zero _ hz hcon
  · unfold formatGrowthGB
    rw [if_neg (by rw [abs_abs]; exact not_lt.mpr h), if_pos habs]
  · unfold formatGrowthGB
    rw [if_neg (by rw [abs_neg, abs_abs]; exact not_lt.mpr h),
      if_neg (by simp [not_lt.mpr habs.le]), abs_neg, abs_abs]

/-- Witness for **C10** at `r = -1/20`. -/
theorem growth_no_signed_zero_witness :
    1 / 10 ≤ roundRawNum |(-1 / 20 : ℚ)| ∧
    formatGrowthGB (-1 / 20 : ℚ) ≠ "+ 0 GB" ∧
    formatGrowthGB (-1 / 20 : ℚ) ≠ "- 0 GB" ∧
    formatGrowthGB |(-1 / 20 : ℚ)| =
      "+ " ++ formatTenths (jsRound (|(-1 / 20 : ℚ)| * 10)) ++ " GB" ∧
    formatGrowthGB (-|(-1 / 20 : ℚ)|) =
      "- " ++ formatTenths (jsRound (|(-1 / 20 : ℚ)| * 10)) ++ " GB" :=
  growth_no_signed_zero (-1 / 20)
    (by rw [abs_of_neg (by norm_num : (-1 / 20 : ℚ) < 0)]; norm_num)

end ServerMonitor
